import Mathlib

/-!
Shallow embedding of the geekey validator's reconciliation core.

Source files embedded:
* `validation_engine.py` — `validate_store` (the extended engine: cleaning,
  3-column grouping, outer merge, quantity/price differences, status
  classification, summary counters, mismatch table);
* `app.py` — `validate` (the simple variant: key normalization, 4-column
  grouping with `dropna=False`, outer merge, difference, mismatch filtering,
  optional route-card/supplier filters, count + capped preview);
* `appsecond.py` — its `validate` shares the reconciliation and filter logic
  of `app.py` (same grouping, merge, difference and filter code), differing
  only in transport and in returning an unbounded summary list.

Tables are lists of rows; a pandas scalar is a `Cell` (number, text, or
missing/NaN).  Quantities and prices are modelled as exact rationals.
-/

namespace Geekey

/-! ### Cells and numeric coercion (pandas scalar model) -/

/-- A spreadsheet cell as read from an input table: a numeric value, a text
value, or a missing value (pandas NaN/None). -/
inductive Cell where
  | num (q : ℚ)
  | str (s : String)
  | null
deriving DecidableEq, Repr

/-- Drop leading whitespace characters (structural helper for `strip`). -/
def dropWS : List Char → List Char
  | [] => []
  | c :: cs => if c.isWhitespace then dropWS cs else c :: cs

/-- Model of `str.strip()` / pandas `.str.strip()`: remove leading and
trailing whitespace. -/
def strip (s : String) : String := ⟨((dropWS s.data).reverse |> dropWS).reverse⟩

/-- Numeric value of a digit character. -/
def digitVal (c : Char) : ℕ := c.toNat - 48

/-- Value of a digit list, most significant digit first. -/
def digitsVal (cs : List Char) : ℕ := cs.foldl (fun acc c => 10 * acc + digitVal c) 0

/-- A nonempty all-digit character list. -/
def isDigits (cs : List Char) : Bool := !cs.isEmpty && cs.all Char.isDigit

/-- Parse an unsigned decimal literal: digits, optionally a dot and more
digits.  Anything else is unparsable. -/
def parseUnsigned (cs : List Char) : Option ℚ :=
  let ip := cs.takeWhile (fun c => decide (c ≠ '.'))
  match cs.dropWhile (fun c => decide (c ≠ '.')) with
  | [] => if isDigits ip then some (digitsVal ip : ℚ) else none
  | '.' :: fp =>
      if isDigits ip && isDigits fp then
        some ((digitsVal ip : ℚ) + (digitsVal fp : ℚ) / (10 : ℚ) ^ fp.length)
      else none
  | _ => none

/-- Parse an optionally signed decimal literal. -/
def parseSigned : List Char → Option ℚ
  | '-' :: cs => (parseUnsigned cs).map (fun q => -q)
  | '+' :: cs => parseUnsigned cs
  | cs => parseUnsigned cs

/-- Model of `pd.to_numeric(x, errors="coerce")` on one cell: numbers pass
through, numeric-looking text (after stripping) parses, everything else —
including a missing cell — coerces to NaN, modelled as `none`. -/
def toNumeric? : Cell → Option ℚ
  | .num q => some q
  | .str s => parseSigned (strip s).data
  | .null => none

/-- Composite `pd.to_numeric(x, errors="coerce").fillna(0)` applied to one cell. -/
def coerce0 (c : Cell) : ℚ := (toNumeric? c).getD 0

/-! ### validation_engine.py — validate_store -/

/-- One raw row of either ledger as `validate_store` sees it: the three
grouping-key cells and the two measure cells. -/
structure RawRow where
  fg : Cell     -- 'FG Item Code'
  rc : Cell     -- 'RouteCard No'
  dc : Cell     -- 'GK DC No' (issue side) / 'Subcon DC No' (received side)
  qty : Cell    -- 'Transfer Qty' / 'Rcvd. Qty'
  price : Cell  -- 'Special Price'
deriving DecidableEq, Repr

/-- A row after step 1 (data cleaning): measure columns coerced to numbers
with zero fill; key cells untouched. -/
structure CleanRow where
  fg : Cell
  rc : Cell
  dc : Cell
  qty : ℚ
  price : ℚ
deriving DecidableEq, Repr

/-- Step 1 of `validate_store` on one row: `to_numeric(..., errors="coerce").fillna(0)`
on the quantity and price columns. -/
def cleanRow (r : RawRow) : CleanRow :=
  { fg := r.fg, rc := r.rc, dc := r.dc, qty := coerce0 r.qty, price := coerce0 r.price }

/-- A grouping key of the engine: ('FG Item Code', 'RouteCard No', DC-No). -/
abbrev CKey := Cell × Cell × Cell

/-- The grouping key of a clean row. -/
def CleanRow.key (r : CleanRow) : CKey := (r.fg, r.rc, r.dc)

/-- Whether a grouping key contains a null cell (pandas groupby's default
`dropna=True` excludes such keys). -/
def keyHasNull (k : CKey) : Bool :=
  k.1 == Cell.null || k.2.1 == Cell.null || k.2.2 == Cell.null

/-- First-occurrence deduplication, structurally recursive so that concrete
runs reduce.  (Row order of a pandas groupby is not contractually
meaningful; only the set of keys matters below.) -/
def dedupF {α : Type} [DecidableEq α] : List α → List α
  | [] => []
  | a :: l => a :: (dedupF l).filter (fun x => decide (x ≠ a))

/-- The distinct grouping keys of a clean table; groupby's default
`dropna=True` drops every key containing a null. -/
def groupKeys (rows : List CleanRow) : List CKey :=
  dedupF ((rows.map CleanRow.key).filter (fun k => !keyHasNull k))

/-- One row of an aggregated (grouped) frame of the engine. -/
structure AggRow where
  key : CKey
  qty : ℚ    -- summed 'Transfer Qty' / 'Rcvd. Qty'
  price : ℚ  -- mean 'Special Price'
deriving DecidableEq, Repr

/-- Model of `groupby(keys).agg(qty sum, price mean)`: one output row per distinct
non-null key, the quantity summed and the price averaged over the key's
rows. -/
def groupAgg (rows : List CleanRow) : List AggRow :=
  (groupKeys rows).map (fun k =>
    let g := rows.filter (fun r => r.key == k)
    { key := k,
      qty := (g.map CleanRow.qty).sum,
      price := (g.map CleanRow.price).sum / (g.length : ℚ) })

/-- Key order of a pandas outer merge when both sides carry unique keys:
the left keys in order, then the unmatched right keys. -/
def outerKeys {α : Type} [DecidableEq α] (ka kb : List α) : List α :=
  ka ++ kb.filter (fun k => decide (k ∉ ka))

/-- Row lookup by key in an aggregated frame. -/
def findKey (l : List AggRow) (k : CKey) : Option AggRow :=
  l.find? (fun a => a.key == k)

/-- One row of the merged frame after `merge(..., how="outer").fillna(0)`:
both sides' measures, with a missing side's measures filled with 0. -/
structure MergedRow where
  key : CKey
  issueQty : ℚ    -- 'Transfer Qty'
  recvQty : ℚ     -- 'Rcvd. Qty'
  issuePrice : ℚ  -- 'Special Price_Issued'
  recvPrice : ℚ   -- 'Special Price_Received'
deriving DecidableEq, Repr

/-- Step 4 of `validate_store`: outer merge on the shared key (the received
side's 'Subcon DC No' having been renamed to 'GK DC No'), then `fillna(0)`. -/
def mergeOuter (iss recv : List AggRow) : List MergedRow :=
  (outerKeys (iss.map AggRow.key) (recv.map AggRow.key)).map (fun k =>
    { key := k,
      issueQty := ((findKey iss k).map AggRow.qty).getD 0,
      recvQty := ((findKey recv k).map AggRow.qty).getD 0,
      issuePrice := ((findKey iss k).map AggRow.price).getD 0,
      recvPrice := ((findKey recv k).map AggRow.price).getD 0 })

/-- Step 5 classification: 'Matched' on zero difference, 'Over Receipt' when
negative, 'Under Receipt' when positive. -/
def receiptStatus (d : ℚ) : String :=
  if d = 0 then "Matched" else if d < 0 then "Over Receipt" else "Under Receipt"

/-- Step 6 classification: 'Matched' iff the price difference is exactly 0. -/
def priceStatus (d : ℚ) : String :=
  if d = 0 then "Matched" else "Mismatch"

/-- Step 7 classification: 'Matched' iff both component statuses matched. -/
def overallStatus (rs ps : String) : String :=
  if rs = "Matched" ∧ ps = "Matched" then "Matched" else "Mismatch"

/-- One row of the engine's result frame, with the computed difference and
status columns. -/
structure ResultRow where
  key : CKey
  issueQty : ℚ            -- 'Transfer Qty'
  recvQty : ℚ             -- 'Rcvd. Qty'
  issuePrice : ℚ          -- 'Special Price_Issued'
  recvPrice : ℚ           -- 'Special Price_Received'
  qtyDiff : ℚ             -- 'Qty Difference'
  priceDiff : ℚ           -- 'Price Difference'
  receipt_status : String -- 'Receipt Status'
  price_status : String   -- 'Price Status'
  overall_status : String -- 'Overall Status'
deriving DecidableEq, Repr

/-- Steps 5-7 of `validate_store` on one merged row. -/
def toResultRow (m : MergedRow) : ResultRow :=
  let qd := m.issueQty - m.recvQty
  let pd := m.issuePrice - m.recvPrice
  let rs := receiptStatus qd
  let ps := priceStatus pd
  { key := m.key, issueQty := m.issueQty, recvQty := m.recvQty,
    issuePrice := m.issuePrice, recvPrice := m.recvPrice,
    qtyDiff := qd, priceDiff := pd,
    receipt_status := rs, price_status := ps,
    overall_status := overallStatus rs ps }

/-- The six summary counters of step 8. -/
structure Summary where
  total_records : ℕ
  matched_records : ℕ
  mismatch_records : ℕ
  over_receipt_cases : ℕ
  under_receipt_cases : ℕ
  price_mismatch_cases : ℕ
deriving DecidableEq, Repr

/-- The structured return value of `validate_store`. -/
structure StoreResult where
  summary : Summary
  full_table : List ResultRow
  mismatch_table : List ResultRow
deriving DecidableEq, Repr

/-- Model of `validate_store(issue_df, received_df)`: cleaning, grouping of both
sides, outer merge, difference and status columns, summary counters,
mismatch-only table. -/
def validate_store (issue_df received_df : List RawRow) : StoreResult :=
  let issue_grouped := groupAgg (issue_df.map cleanRow)
  let received_grouped := groupAgg (received_df.map cleanRow)
  let result := (mergeOuter issue_grouped received_grouped).map toResultRow
  { summary :=
      { total_records := result.length,
        matched_records := (result.filter (fun r => r.overall_status == "Matched")).length,
        mismatch_records := (result.filter (fun r => r.overall_status == "Mismatch")).length,
        over_receipt_cases := (result.filter (fun r => r.receipt_status == "Over Receipt")).length,
        under_receipt_cases := (result.filter (fun r => r.receipt_status == "Under Receipt")).length,
        price_mismatch_cases := (result.filter (fun r => r.price_status == "Mismatch")).length },
    full_table := result,
    mismatch_table := result.filter (fun r => r.overall_status == "Mismatch") }

/-! ### app.py — validate (simple variant) -/

/-- One raw row as `app.py`'s `validate` sees it after Excel decoding: four
key cells and a quantity.  (`app.py` applies no numeric coercion to its
quantity column, so the quantity is modelled as already numeric.) -/
structure AppRaw where
  rc : Cell   -- 'RouteCard No'
  dc : Cell   -- 'GK DC No' (issue) / 'Subcon DC No' (received)
  fg : Cell   -- 'FG Item Code'
  sup : Cell  -- 'Supplier Name'
  qty : ℚ     -- 'Transfer Qty' / 'Rcvd. Qty'
deriving DecidableEq, Repr

/-- pandas `.astype(str)` on one cell (NaN prints as "nan"). -/
def cellStr : Cell → String
  | .num q => toString q
  | .str s => s
  | .null => "nan"

/-- An app-side grouping key: (RouteCard No, DC No, FG Item Code,
Supplier Name), all text. -/
abbrev AKey := String × String × String × String

/-- Key normalization of app.py lines 19-29 (and appsecond.py lines 57-67):
`.astype(str).str.strip()` on each key column. -/
def appKey (r : AppRaw) : AKey :=
  (strip (cellStr r.rc), strip (cellStr r.dc), strip (cellStr r.fg), strip (cellStr r.sup))

/-- A row after key normalization. -/
structure AppKeyed where
  key : AKey
  qty : ℚ
deriving DecidableEq, Repr

/-- Normalization of one raw row. -/
def appNormalize (r : AppRaw) : AppKeyed := { key := appKey r, qty := r.qty }

/-- Model of `groupby(keys, dropna=False)[qty].sum()`: one row per distinct key.
Keys are strings after `astype(str)` (a NaN key became the string "nan"),
so no key is null and every row joins a group. -/
def appGroup (rows : List AppKeyed) : List (AKey × ℚ) :=
  (dedupF (rows.map AppKeyed.key)).map (fun k =>
    (k, ((rows.filter (fun r => r.key == k)).map AppKeyed.qty).sum))

/-- One row of the app's merged frame: 'Issue_Qty', 'Received_Qty' (both
zero-filled) and 'Difference'. -/
structure AppMerged where
  key : AKey
  issueQty : ℚ  -- 'Issue_Qty'
  recvQty : ℚ   -- 'Received_Qty'
  diff : ℚ      -- 'Difference'
deriving DecidableEq, Repr

/-- STEP 3 and 4 of app.py: outer merge on the four-column key, `fillna(0)`
on the two quantity columns, then the 'Difference' column. -/
def appMerge (ig rg : List (AKey × ℚ)) : List AppMerged :=
  (outerKeys (ig.map Prod.fst) (rg.map Prod.fst)).map (fun k =>
    let iq := ((ig.find? (fun p => p.1 == k)).map Prod.snd).getD 0
    let rq := ((rg.find? (fun p => p.1 == k)).map Prod.snd).getD 0
    { key := k, issueQty := iq, recvQty := rq, diff := iq - rq })

/-- Python truthiness of an optional string: `None` and `""` are falsy, so
`if route_card:` skips the filter for both. -/
def truthy : Option String → Bool
  | none => false
  | some s => !s.isEmpty

/-- STEP 5 route-card filter (app.py line 94, appsecond.py line 130):
applied only when the argument is truthy, by exact string equality. -/
def routeFilter (route_card : Option String) (rows : List AppMerged) : List AppMerged :=
  match route_card with
  | none => rows
  | some s => if s.isEmpty then rows else rows.filter (fun r => r.key.1 == s)

/-- STEP 5 supplier filter (app.py line 99, appsecond.py line 135). -/
def supplierFilter (supplier : Option String) (rows : List AppMerged) : List AppMerged :=
  match supplier with
  | none => rows
  | some s => if s.isEmpty then rows else rows.filter (fun r => r.key.2.2.2 == s)

/-- The response payload of app.py's `validate`. -/
structure AppResult where
  mismatch_count : ℕ
  mismatch_preview : List AppMerged
deriving DecidableEq, Repr

/-- app.py's `validate`, from the two decoded tables and the two optional
query filters to the response payload: aggregate both sides, outer merge,
keep rows with non-zero difference, apply the filters, count, and preview
the first 100 rows. -/
def validate (issue_df received_df : List AppRaw) (route_card supplier : Option String) :
    AppResult :=
  let issue_grouped := appGroup (issue_df.map appNormalize)
  let received_grouped := appGroup (received_df.map appNormalize)
  let merged := appMerge issue_grouped received_grouped
  let mismatch := merged.filter (fun r => decide (r.diff ≠ 0))
  let filtered := supplierFilter supplier (routeFilter route_card mismatch)
  { mismatch_count := filtered.length, mismatch_preview := filtered.take 100 }

/-! ### Column schema behaviour (KeyError on a missing column) -/

/-- Strip every column name (app.py lines 33-34, appsecond.py lines 51-52). -/
def stripAll (cols : List String) : List String := cols.map strip

/-- A sequence of `df[c]` accesses: the first needed name missing from the
frame's columns raises a KeyError carrying that name. -/
def requireCols (needed cols : List String) : Except String Unit :=
  match needed.find? (fun c => !cols.contains c) with
  | some c => .error c
  | none => .ok ()

/-- The key columns app.py reads from the issue frame (lines 19-28). -/
def appIssueKeyCols : List String :=
  ["RouteCard No", "GK DC No", "FG Item Code", "Supplier Name"]

/-- The key columns app.py reads from the received frame (lines 20-29). -/
def appRecvKeyCols : List String :=
  ["RouteCard No", "Subcon DC No", "FG Item Code", "Supplier Name"]

/-- The column accesses of app.py's `validate` in source order: the key
columns by raw (unstripped) name — lines 19-29 run before the column-name
strip of lines 33-34 — then the quantity columns against the stripped
names (the groupby calls at lines 44 and 61). -/
def appSchemaCheck (issueCols receivedCols : List String) : Except String Unit := do
  requireCols appIssueKeyCols issueCols
  requireCols appRecvKeyCols receivedCols
  requireCols ["Transfer Qty"] (stripAll issueCols)
  requireCols ["Rcvd. Qty"] (stripAll receivedCols)

/-- The column accesses of `validate_store` in source order.  It never
strips column names, and 'Special Price' is read with `.get` and a default,
so it is never required. -/
def engineSchemaCheck (issueCols receivedCols : List String) : Except String Unit := do
  requireCols ["Transfer Qty"] issueCols
  requireCols ["Rcvd. Qty"] receivedCols
  requireCols ["FG Item Code", "RouteCard No", "GK DC No"] issueCols
  requireCols ["FG Item Code", "RouteCard No", "Subcon DC No"] receivedCols

/-- The column-presence convention app.py actually implements: key columns
by exact raw name, quantity columns by stripped name. -/
def appRawSchemaOk (issueCols receivedCols : List String) : Bool :=
  appIssueKeyCols.all (issueCols.contains ·) &&
  appRecvKeyCols.all (receivedCols.contains ·) &&
  (stripAll issueCols).contains "Transfer Qty" &&
  (stripAll receivedCols).contains "Rcvd. Qty"

/-- The column-presence convention `validate_store` actually implements:
every required column by exact raw name. -/
def engineRawSchemaOk (issueCols receivedCols : List String) : Bool :=
  ["Transfer Qty", "FG Item Code", "RouteCard No", "GK DC No"].all (issueCols.contains ·) &&
  ["Rcvd. Qty", "FG Item Code", "RouteCard No", "Subcon DC No"].all (receivedCols.contains ·)

/-- app.py's endpoint with its schema behaviour explicit: either a KeyError
surfaced as an error — aborting with no partial result — or the full
payload. -/
def validateRun (issueCols receivedCols : List String)
    (issue_df received_df : List AppRaw) (route_card supplier : Option String) :
    Except String AppResult :=
  match appSchemaCheck issueCols receivedCols with
  | .error e => .error e
  | .ok _ => .ok (validate issue_df received_df route_card supplier)

/-! ### Mutation model for validate_store's arguments (frame condition)

`validate_store` receives references to two caller-owned frames.  The heap
maps references to frame contents; `copy()` allocates, and an in-place
column assignment writes through a reference.  All steps after the cleaning
section construct fresh frames (groupby, merge, apply, filtering), so the
cleaning section is the only code that writes at all. -/

/-- A heap of pandas frames: contents per reference, plus the next fresh
reference. -/
structure Heap where
  mem : ℕ → List RawRow
  next : ℕ

/-- Dereference a frame. -/
def Heap.get (h : Heap) (r : ℕ) : List RawRow := h.mem r

/-- In-place column assignment: write through a reference. -/
def Heap.write (h : Heap) (r : ℕ) (v : List RawRow) : Heap :=
  { h with mem := Function.update h.mem r v }

/-- Model of `df.copy()`: allocate a fresh frame holding the same contents. -/
def Heap.alloc (h : Heap) (v : List RawRow) : Heap × ℕ :=
  ({ mem := Function.update h.mem h.next v, next := h.next + 1 }, h.next)

/-- The column assignment `df['Transfer Qty'] = to_numeric(...).fillna(0)`
(resp. 'Rcvd. Qty') as a whole-frame value. -/
def coerceQtyCol (rows : List RawRow) : List RawRow :=
  rows.map (fun r => { r with qty := Cell.num (coerce0 r.qty) })

/-- The column assignment `df['Special Price'] = to_numeric(...).fillna(0)`
as a whole-frame value. -/
def coercePriceCol (rows : List RawRow) : List RawRow :=
  rows.map (fun r => { r with price := Cell.num (coerce0 r.price) })

/-- Lines 16-33 of `validate_store` as heap operations: copy both argument
frames, then assign the coerced measure columns in place on the copies, in
source order.  Returns the heap and the two copies' references. -/
def cleanSection (h : Heap) (issueRef receivedRef : ℕ) : Heap × ℕ × ℕ :=
  let a1 := h.alloc (h.get issueRef)
  let h1 := a1.1
  let i2 := a1.2
  let a2 := h1.alloc (h1.get receivedRef)
  let h2 := a2.1
  let r2 := a2.2
  let h3 := h2.write i2 (coerceQtyCol (h2.get i2))
  let h4 := h3.write r2 (coerceQtyCol (h3.get r2))
  let h5 := h4.write i2 (coercePriceCol (h4.get i2))
  let h6 := h5.write r2 (coercePriceCol (h5.get r2))
  (h6, i2, r2)

/-! ### Spec-side filter predicate (for comparison with the code's filters) -/

/-- The filter-matching predicate in the spec's words, amended only by the
code's truthiness convention: an absent filter — and an empty-string one —
imposes no constraint; a non-empty filter requires exact string equality. -/
def specFilterMatches : Option String → String → Bool
  | none, _ => true
  | some s, v => s.isEmpty || v == s

deriving instance DecidableEq for Except

/-! ### Helper lemmas -/

theorem mem_dedupF {α : Type} [DecidableEq α] (l : List α) (x : α) :
    x ∈ dedupF l ↔ x ∈ l := by
  induction l with
  | nil => simp [dedupF]
  | cons a l ih =>
      simp only [dedupF, List.mem_cons, List.mem_filter, decide_eq_true_eq]
      constructor
      · rintro (rfl | ⟨hx, _⟩)
        · exact Or.inl rfl
        · exact Or.inr (ih.mp hx)
      · rintro (rfl | hx)
        · exact Or.inl rfl
        · by_cases hxa : x = a
          · exact Or.inl hxa
          · exact Or.inr ⟨ih.mpr hx, hxa⟩

theorem nodup_dedupF {α : Type} [DecidableEq α] (l : List α) :
    (dedupF l).Nodup := by
  induction l with
  | nil => simp [dedupF]
  | cons a l ih =>
      refine List.Nodup.cons ?_ (ih.filter _)
      intro ha
      rcases List.mem_filter.mp ha with ⟨-, hne⟩
      exact (decide_eq_true_eq.mp hne) rfl

theorem mem_outerKeys {α : Type} [DecidableEq α] (ka kb : List α) (k : α) :
    k ∈ outerKeys ka kb ↔ k ∈ ka ∨ k ∈ kb := by
  simp only [outerKeys, List.mem_append, List.mem_filter, decide_eq_true_eq]
  constructor
  · rintro (h | ⟨h, -⟩)
    · exact Or.inl h
    · exact Or.inr h
  · rintro (h | h)
    · exact Or.inl h
    · by_cases hka : k ∈ ka
      · exact Or.inl hka
      · exact Or.inr ⟨h, hka⟩

theorem nodup_outerKeys {α : Type} [DecidableEq α] (ka kb : List α)
    (ha : ka.Nodup) (hb : kb.Nodup) : (outerKeys ka kb).Nodup := by
  refine List.Nodup.append ha (hb.filter _) ?_
  intro k hka hkb
  rcases List.mem_filter.mp hkb with ⟨-, hne⟩
  exact (decide_eq_true_eq.mp hne) hka

theorem map_key_mergeOuter (iss recv : List AggRow) :
    (mergeOuter iss recv).map MergedRow.key
      = outerKeys (iss.map AggRow.key) (recv.map AggRow.key) := by
  simp only [mergeOuter, List.map_map]
  exact List.map_id' _

theorem map_key_appMerge (ig rg : List (AKey × ℚ)) :
    (appMerge ig rg).map AppMerged.key
      = outerKeys (ig.map Prod.fst) (rg.map Prod.fst) := by
  simp only [appMerge, List.map_map]
  exact List.map_id' _

theorem map_key_groupAgg (rows : List CleanRow) :
    (groupAgg rows).map AggRow.key = groupKeys rows := by
  simp only [groupAgg, List.map_map]
  exact List.map_id' _

theorem map_fst_appGroup (rows : List AppKeyed) :
    (appGroup rows).map Prod.fst = dedupF (rows.map AppKeyed.key) := by
  simp only [appGroup, List.map_map]
  exact List.map_id' _

theorem requireCols_ok (needed cols : List String) :
    requireCols needed cols = Except.ok () ↔ ∀ c ∈ needed, c ∈ cols := by
  unfold requireCols
  cases h : needed.find? (fun c => !cols.contains c) with
  | none =>
      have h' := List.find?_eq_none.mp h
      constructor
      · intro _ c hc
        have := h' c hc
        simpa using this
      · intro _; rfl
  | some c =>
      have hc := List.find?_some h
      have hmem := List.mem_of_find?_eq_some h
      have hc' : c ∉ cols := by simpa using hc
      constructor
      · intro habs; simp at habs
      · intro hall; exact absurd (hall c hmem) hc'

theorem contains_true_iff (l : List String) (c : String) :
    l.contains c = true ↔ c ∈ l := by
  induction l with
  | nil => simp
  | cons a l ih => simp [List.contains_cons] at *

theorem except_seq_ok (x : Except String Unit) (f : Unit → Except String Unit) :
    x >>= f = Except.ok () ↔ (x = Except.ok () ∧ f () = Except.ok ()) := by
  cases x with
  | error e => simp [Bind.bind, Except.bind]
  | ok u => cases u; simp [Bind.bind, Except.bind]

/-- The required app.py column names are themselves whitespace-free. -/
theorem app_required_names_stripped :
    (∀ c ∈ appIssueKeyCols, strip c = c) ∧ strip "Transfer Qty" = "Transfer Qty" := by
  decide

/-- Partition of a result table by the binary overall status. -/
theorem filter_matched_mismatch_length (l : List ResultRow)
    (h : ∀ r ∈ l, r.overall_status = "Matched" ∨ r.overall_status = "Mismatch") :
    (l.filter (fun r => r.overall_status == "Matched")).length
      + (l.filter (fun r => r.overall_status == "Mismatch")).length = l.length := by
  induction l with
  | nil => simp
  | cons a l ih =>
      have ha := h a (List.mem_cons_self a l)
      have ih' := ih (fun r hr => h r (List.mem_cons_of_mem a hr))
      rcases ha with ha | ha <;>
        simp [List.filter_cons, ha, Nat.succ_eq_add_one] <;> omega

theorem overallStatus_cases (rs ps : String) :
    overallStatus rs ps = "Matched" ∨ overallStatus rs ps = "Mismatch" := by
  unfold overallStatus
  by_cases h : rs = "Matched" ∧ ps = "Matched" <;> simp [h]

/-! ### Claim theorems -/

/-- Claim C1: for every pair of aggregated inputs (one row per key on each
side, as groupby produces), the reconciled outer-merge result has exactly
one row per key in the union of the two aggregated key sets — no key
present on either side is lost, no key absent from both is invented, and
no key appears twice — in the extended engine's merge and in the simple
variant's merge alike. -/
theorem c1_outer_join_key_union (li lr : List AggRow) (ai ar : List (AKey × ℚ))
    (hi : (li.map AggRow.key).Nodup) (hr : (lr.map AggRow.key).Nodup)
    (hai : (ai.map Prod.fst).Nodup) (har : (ar.map Prod.fst).Nodup) :
    ((mergeOuter li lr).map MergedRow.key).Nodup
  ∧ (∀ k, k ∈ (mergeOuter li lr).map MergedRow.key
        ↔ (k ∈ li.map AggRow.key ∨ k ∈ lr.map AggRow.key))
  ∧ ((appMerge ai ar).map AppMerged.key).Nodup
  ∧ (∀ k, k ∈ (appMerge ai ar).map AppMerged.key
        ↔ (k ∈ ai.map Prod.fst ∨ k ∈ ar.map Prod.fst)) := by
  refine ⟨?_, ?_, ?_, ?_⟩
  · rw [map_key_mergeOuter]; exact nodup_outerKeys _ _ hi hr
  · intro k; rw [map_key_mergeOuter]; exact mem_outerKeys _ _ k
  · rw [map_key_appMerge]; exact nodup_outerKeys _ _ hai har
  · intro k; rw [map_key_appMerge]; exact mem_outerKeys _ _ k

theorem c1_outer_join_key_union_witness :
    ((mergeOuter [⟨(Cell.str "F1", Cell.str "R1", Cell.str "D1"), 5, 0⟩]
        [⟨(Cell.str "F2", Cell.str "R2", Cell.str "D2"), 3, 0⟩]).map MergedRow.key).Nodup
  ∧ (∀ k, k ∈ (mergeOuter [⟨(Cell.str "F1", Cell.str "R1", Cell.str "D1"), 5, 0⟩]
        [⟨(Cell.str "F2", Cell.str "R2", Cell.str "D2"), 3, 0⟩]).map MergedRow.key
        ↔ (k ∈ [AggRow.mk (Cell.str "F1", Cell.str "R1", Cell.str "D1") 5 0].map AggRow.key
            ∨ k ∈ [AggRow.mk (Cell.str "F2", Cell.str "R2", Cell.str "D2") 3 0].map AggRow.key))
  ∧ ((appMerge [(("R1", "D1", "F1", "S1"), 2)] []).map AppMerged.key).Nodup
  ∧ (∀ k, k ∈ (appMerge [(("R1", "D1", "F1", "S1"), 2)] []).map AppMerged.key
        ↔ (k ∈ [(("R1", "D1", "F1", "S1"), (2 : ℚ))].map Prod.fst
            ∨ k ∈ ([] : List (AKey × ℚ)).map Prod.fst)) :=
  c1_outer_join_key_union
    [⟨(Cell.str "F1", Cell.str "R1", Cell.str "D1"), 5, 0⟩]
    [⟨(Cell.str "F2", Cell.str "R2", Cell.str "D2"), 3, 0⟩]
    [(("R1", "D1", "F1", "S1"), 2)] []
    (by decide) (by decide) (by decide) (by decide)

/-- Claim C3: every reconciled row's status triple is the fixed pure mapping
of its differences: receipt status is Matched / Over Receipt / Under Receipt
as the quantity difference is zero / negative / positive; price status is
Matched iff the price difference (issue mean price minus received mean
price, zero-filled) is exactly zero, else Mismatch; and overall status is
Matched iff both component statuses are Matched, else Mismatch.  The
engine's full table consists exactly of such rows. -/
theorem c3_status_triple (m : MergedRow) (ei er : List RawRow) :
    (toResultRow m).qtyDiff = (toResultRow m).issueQty - (toResultRow m).recvQty
  ∧ (toResultRow m).priceDiff = (toResultRow m).issuePrice - (toResultRow m).recvPrice
  ∧ (toResultRow m).receipt_status
      = (if (toResultRow m).qtyDiff = 0 then "Matched"
         else if (toResultRow m).qtyDiff < 0 then "Over Receipt" else "Under Receipt")
  ∧ (toResultRow m).price_status
      = (if (toResultRow m).priceDiff = 0 then "Matched" else "Mismatch")
  ∧ ((toResultRow m).overall_status = "Matched"
      ↔ ((toResultRow m).receipt_status = "Matched"
          ∧ (toResultRow m).price_status = "Matched"))
  ∧ ((toResultRow m).overall_status = "Matched"
      ∨ (toResultRow m).overall_status = "Mismatch")
  ∧ (validate_store ei er).full_table
      = (mergeOuter (groupAgg (ei.map cleanRow)) (groupAgg (er.map cleanRow))).map toResultRow := by
  refine ⟨rfl, rfl, rfl, rfl, ?_, overallStatus_cases _ _, rfl⟩
  show overallStatus (receiptStatus _) (priceStatus _) = "Matched" ↔ _
  unfold overallStatus
  by_cases h : receiptStatus (m.issueQty - m.recvQty) = "Matched"
      ∧ priceStatus (m.issuePrice - m.recvPrice) = "Matched"
  · exact iff_of_true (by rw [if_pos h]) h
  · simp only [if_neg h]
    constructor
    · intro habs; exact absurd habs (by decide)
    · intro habs; exact absurd habs h

/-- Claim C8: in the simple variant, `mismatch_count` is the length of the
filtered mismatch set (non-zero-difference rows, counted after the optional
filters), and `mismatch_preview` is exactly the first rows of that set
capped at 100; the extended engine instead returns the unbounded full table
(its length is the total record count — no cap) and the unbounded
mismatch-only table (the full filter of the full table). -/
theorem c8_count_preview_shapes (ai ar : List AppRaw) (rc sup : Option String)
    (ei er : List RawRow) :
    (validate ai ar rc sup).mismatch_count
      = (supplierFilter sup (routeFilter rc
          ((appMerge (appGroup (ai.map appNormalize)) (appGroup (ar.map appNormalize))).filter
            (fun r => decide (r.diff ≠ 0))))).length
  ∧ (validate ai ar rc sup).mismatch_preview
      = (supplierFilter sup (routeFilter rc
          ((appMerge (appGroup (ai.map appNormalize)) (appGroup (ar.map appNormalize))).filter
            (fun r => decide (r.diff ≠ 0))))).take 100
  ∧ (validate ai ar rc sup).mismatch_preview.length ≤ 100
  ∧ (validate_store ei er).full_table.length = (validate_store ei er).summary.total_records
  ∧ (validate_store ei er).mismatch_table
      = (validate_store ei er).full_table.filter (fun r => r.overall_status == "Mismatch") := by
  refine ⟨rfl, rfl, ?_, rfl, rfl⟩
  exact List.length_take_le _ _

/-- Claim C10: the engine's summary counters agree with its tables:
`total_records` is the length of the full table, matched plus mismatch
records account for every record, and the mismatch table consists of
exactly the full table's rows whose overall status is "Mismatch", so its
length is `mismatch_records`. -/
theorem c10_summary_consistency (ei er : List RawRow) :
    (validate_store ei er).summary.total_records = (validate_store ei er).full_table.length
  ∧ (validate_store ei er).summary.matched_records
      + (validate_store ei er).summary.mismatch_records
      = (validate_store ei er).summary.total_records
  ∧ (validate_store ei er).mismatch_table
      = (validate_store ei er).full_table.filter (fun r => r.overall_status == "Mismatch")
  ∧ (validate_store ei er).mismatch_table.length
      = (validate_store ei er).summary.mismatch_records := by
  refine ⟨rfl, ?_, rfl, rfl⟩
  apply filter_matched_mismatch_length
  intro r hr
  rcases List.mem_map.mp hr with ⟨m, -, rfl⟩
  exact overallStatus_cases _ _

/-- Claim C2: every reconciled row's quantity difference is exactly issue
quantity minus received quantity, where a side's quantity is the aggregated
value when that side has a row for the key and is replaced by zero (never
left null) when it has none — in the extended engine and in the simple
variant alike. -/
theorem c2_qty_difference_zero_fill (li lr : List AggRow) (ai ar : List (AKey × ℚ))
    (m : MergedRow) (hm : m ∈ mergeOuter li lr)
    (p : AppMerged) (hp : p ∈ appMerge ai ar) :
    (toResultRow m).qtyDiff = m.issueQty - m.recvQty
  ∧ m.issueQty = ((findKey li m.key).map AggRow.qty).getD 0
  ∧ m.recvQty = ((findKey lr m.key).map AggRow.qty).getD 0
  ∧ (findKey li m.key = none → m.issueQty = 0)
  ∧ (findKey lr m.key = none → m.recvQty = 0)
  ∧ p.diff = p.issueQty - p.recvQty
  ∧ p.issueQty = ((ai.find? (fun q => q.1 == p.key)).map Prod.snd).getD 0
  ∧ p.recvQty = ((ar.find? (fun q => q.1 == p.key)).map Prod.snd).getD 0
  ∧ (ai.find? (fun q => q.1 == p.key) = none → p.issueQty = 0)
  ∧ (ar.find? (fun q => q.1 == p.key) = none → p.recvQty = 0) := by
  rcases List.mem_map.mp hm with ⟨k, -, rfl⟩
  rcases List.mem_map.mp hp with ⟨k', -, rfl⟩
  refine ⟨rfl, rfl, rfl, ?_, ?_, rfl, rfl, rfl, ?_, ?_⟩
  · intro h
    show ((findKey li k).map AggRow.qty).getD 0 = 0
    rw [h]; rfl
  · intro h
    show ((findKey lr k).map AggRow.qty).getD 0 = 0
    rw [h]; rfl
  · intro h
    show ((ai.find? (fun q => q.1 == k')).map Prod.snd).getD 0 = 0
    rw [h]; rfl
  · intro h
    show ((ar.find? (fun q => q.1 == k')).map Prod.snd).getD 0 = 0
    rw [h]; rfl

theorem c2_qty_difference_zero_fill_witness :
    (toResultRow ⟨(Cell.str "F1", Cell.str "R1", Cell.str "D1"), 5, 0, 0, 0⟩).qtyDiff
        = (MergedRow.mk (Cell.str "F1", Cell.str "R1", Cell.str "D1") 5 0 0 0).issueQty
          - (MergedRow.mk (Cell.str "F1", Cell.str "R1", Cell.str "D1") 5 0 0 0).recvQty
  ∧ (MergedRow.mk (Cell.str "F1", Cell.str "R1", Cell.str "D1") 5 0 0 0).issueQty
      = ((findKey [⟨(Cell.str "F1", Cell.str "R1", Cell.str "D1"), 5, 0⟩]
          (MergedRow.mk (Cell.str "F1", Cell.str "R1", Cell.str "D1") 5 0 0 0).key).map AggRow.qty).getD 0
  ∧ (MergedRow.mk (Cell.str "F1", Cell.str "R1", Cell.str "D1") 5 0 0 0).recvQty
      = ((findKey ([] : List AggRow)
          (MergedRow.mk (Cell.str "F1", Cell.str "R1", Cell.str "D1") 5 0 0 0).key).map AggRow.qty).getD 0
  ∧ (findKey [⟨(Cell.str "F1", Cell.str "R1", Cell.str "D1"), 5, 0⟩]
        (MergedRow.mk (Cell.str "F1", Cell.str "R1", Cell.str "D1") 5 0 0 0).key = none
      → (MergedRow.mk (Cell.str "F1", Cell.str "R1", Cell.str "D1") 5 0 0 0).issueQty = 0)
  ∧ (findKey ([] : List AggRow)
        (MergedRow.mk (Cell.str "F1", Cell.str "R1", Cell.str "D1") 5 0 0 0).key = none
      → (MergedRow.mk (Cell.str "F1", Cell.str "R1", Cell.str "D1") 5 0 0 0).recvQty = 0)
  ∧ (AppMerged.mk ("R1", "D1", "F1", "S1") 5 0 5).diff
      = (AppMerged.mk ("R1", "D1", "F1", "S1") 5 0 5).issueQty
        - (AppMerged.mk ("R1", "D1", "F1", "S1") 5 0 5).recvQty
  ∧ (AppMerged.mk ("R1", "D1", "F1", "S1") 5 0 5).issueQty
      = (([(("R1", "D1", "F1", "S1"), (5 : ℚ))].find?
          (fun q => q.1 == (AppMerged.mk ("R1", "D1", "F1", "S1") 5 0 5).key)).map Prod.snd).getD 0
  ∧ (AppMerged.mk ("R1", "D1", "F1", "S1") 5 0 5).recvQty
      = ((([] : List (AKey × ℚ)).find?
          (fun q => q.1 == (AppMerged.mk ("R1", "D1", "F1", "S1") 5 0 5).key)).map Prod.snd).getD 0
  ∧ ([(("R1", "D1", "F1", "S1"), (5 : ℚ))].find?
        (fun q => q.1 == (AppMerged.mk ("R1", "D1", "F1", "S1") 5 0 5).key) = none
      → (AppMerged.mk ("R1", "D1", "F1", "S1") 5 0 5).issueQty = 0)
  ∧ ((([] : List (AKey × ℚ)).find?
        (fun q => q.1 == (AppMerged.mk ("R1", "D1", "F1", "S1") 5 0 5).key) = none
      → (AppMerged.mk ("R1", "D1", "F1", "S1") 5 0 5).recvQty = 0)) :=
  c2_qty_difference_zero_fill
    [⟨(Cell.str "F1", Cell.str "R1", Cell.str "D1"), 5, 0⟩] []
    [(("R1", "D1", "F1", "S1"), 5)] []
    ⟨(Cell.str "F1", Cell.str "R1", Cell.str "D1"), 5, 0, 0, 0⟩ (by decide)
    ⟨("R1", "D1", "F1", "S1"), 5, 0, 5⟩
    (by simp [appMerge, outerKeys])

/-- Claim C4: normalization parses each declared numeric measure cell
('Transfer Qty' / 'Rcvd. Qty' / 'Special Price') as a number and replaces
every unparsable or missing cell with zero while keeping the row (the
cleaned table has the same length); replacing an unparsable quantity cell
by a literal zero changes nothing downstream of cleaning, so a non-numeric
quantity cell contributes 0 to its key's sum rather than excluding the row
or raising an error. -/
theorem c4_coerce_unparsable_to_zero (rows pre post : List RawRow) (bad : RawRow)
    (hbad : toNumeric? bad.qty = none) :
    (rows.map cleanRow).length = rows.length
  ∧ (∀ r ∈ rows, (cleanRow r).qty = (toNumeric? r.qty).getD 0
        ∧ (cleanRow r).price = (toNumeric? r.price).getD 0
        ∧ (toNumeric? r.qty = none → (cleanRow r).qty = 0))
  ∧ toNumeric? Cell.null = none
  ∧ groupAgg ((pre ++ bad :: post).map cleanRow)
      = groupAgg ((pre ++ { bad with qty := Cell.num 0 } :: post).map cleanRow) := by
  refine ⟨by simp, ?_, rfl, ?_⟩
  · intro r _
    refine ⟨rfl, rfl, ?_⟩
    intro hq
    show (toNumeric? r.qty).getD 0 = 0
    rw [hq]; rfl
  · have hce : cleanRow bad = cleanRow { bad with qty := Cell.num 0 } := by
      unfold cleanRow coerce0
      rw [hbad]
      rfl
    simp only [List.map_append, List.map_cons, hce]

theorem c4_coerce_unparsable_to_zero_witness :
    ([RawRow.mk (Cell.str "F") (Cell.str "R") (Cell.str "D") (Cell.str "abc") Cell.null].map
        cleanRow).length
      = [RawRow.mk (Cell.str "F") (Cell.str "R") (Cell.str "D") (Cell.str "abc") Cell.null].length
  ∧ (∀ r ∈ [RawRow.mk (Cell.str "F") (Cell.str "R") (Cell.str "D") (Cell.str "abc") Cell.null],
        (cleanRow r).qty = (toNumeric? r.qty).getD 0
      ∧ (cleanRow r).price = (toNumeric? r.price).getD 0
      ∧ (toNumeric? r.qty = none → (cleanRow r).qty = 0))
  ∧ toNumeric? Cell.null = none
  ∧ groupAgg (([]
        ++ RawRow.mk (Cell.str "F") (Cell.str "R") (Cell.str "D") (Cell.str "abc") Cell.null
          :: []).map cleanRow)
      = groupAgg (([]
        ++ { RawRow.mk (Cell.str "F") (Cell.str "R") (Cell.str "D") (Cell.str "abc") Cell.null
              with qty := Cell.num 0 } :: []).map cleanRow) :=
  c4_coerce_unparsable_to_zero
    [RawRow.mk (Cell.str "F") (Cell.str "R") (Cell.str "D") (Cell.str "abc") Cell.null] [] []
    (RawRow.mk (Cell.str "F") (Cell.str "R") (Cell.str "D") (Cell.str "abc") Cell.null)
    (by decide)

/-- Claim C5 counterexample: an issue sheet whose 'RouteCard No' header
carries a leading space.  After trimming, every required column of both
inputs is present (first two conjuncts), yet the run aborts with a KeyError
for 'RouteCard No' and returns no result: app.py reads the key columns
before it strips the column names. -/
theorem c5_counterexample :
    stripAll [" RouteCard No", "GK DC No", "FG Item Code", "Supplier Name", "Transfer Qty"]
      = ["RouteCard No", "GK DC No", "FG Item Code", "Supplier Name", "Transfer Qty"]
  ∧ stripAll ["RouteCard No", "Subcon DC No", "FG Item Code", "Supplier Name", "Rcvd. Qty"]
      = ["RouteCard No", "Subcon DC No", "FG Item Code", "Supplier Name", "Rcvd. Qty"]
  ∧ validateRun [" RouteCard No", "GK DC No", "FG Item Code", "Supplier Name", "Transfer Qty"]
      ["RouteCard No", "Subcon DC No", "FG Item Code", "Supplier Name", "Rcvd. Qty"]
      [] [] none none
      = Except.error "RouteCard No" := by
  decide

/-- Claim C5 amended: a missing required column makes the run fail with a
KeyError that is surfaced and aborts with no partial (or any) result, and
with every required column present no error arises — but presence is judged
by exact raw name for app.py's key columns (they are read before the
column-name trim) and for every column of `validate_store` (which never
trims column names); only app.py's quantity columns are matched after
trimming.  A column missing even after trimming still always fails. -/
theorem c5_schema_error_amended (ic rc : List String) :
    (appSchemaCheck ic rc = Except.ok () ↔ appRawSchemaOk ic rc = true)
  ∧ (engineSchemaCheck ic rc = Except.ok () ↔ engineRawSchemaOk ic rc = true)
  ∧ (appRawSchemaOk ic rc = false →
      ∀ issue recv rcf supf res, validateRun ic rc issue recv rcf supf ≠ Except.ok res)
  ∧ (appRawSchemaOk ic rc = true →
      ∀ issue recv rcf supf,
        validateRun ic rc issue recv rcf supf = Except.ok (validate issue recv rcf supf))
  ∧ ((∃ c, (c ∈ appIssueKeyCols ∨ c = "Transfer Qty") ∧ c ∉ stripAll ic)
      → appRawSchemaOk ic rc = false) := by
  have happ : appSchemaCheck ic rc = Except.ok () ↔ appRawSchemaOk ic rc = true := by
    unfold appSchemaCheck appRawSchemaOk
    rw [except_seq_ok, except_seq_ok, except_seq_ok,
      requireCols_ok, requireCols_ok, requireCols_ok, requireCols_ok]
    simp only [Bool.and_eq_true, List.all_eq_true, contains_true_iff]
    constructor
    · rintro ⟨h1, h2, h3, h4⟩
      refine ⟨⟨⟨h1, h2⟩, ?_⟩, ?_⟩
      · exact h3 "Transfer Qty" (List.mem_singleton_self _)
      · exact h4 "Rcvd. Qty" (List.mem_singleton_self _)
    · rintro ⟨⟨⟨h1, h2⟩, h3⟩, h4⟩
      refine ⟨h1, h2, ?_, ?_⟩
      · intro c hc; rw [List.mem_singleton.mp hc]; exact h3
      · intro c hc; rw [List.mem_singleton.mp hc]; exact h4
  refine ⟨happ, ?_, ?_, ?_, ?_⟩
  · unfold engineSchemaCheck engineRawSchemaOk
    rw [except_seq_ok, except_seq_ok, except_seq_ok,
      requireCols_ok, requireCols_ok, requireCols_ok, requireCols_ok]
    simp only [Bool.and_eq_true, List.all_eq_true, contains_true_iff]
    constructor
    · rintro ⟨h1, h2, h3, h4⟩
      constructor
      · intro c hc
        rcases List.mem_cons.mp hc with rfl | hc
        · exact h1 _ (List.mem_singleton_self _)
        · exact h3 c hc
      · intro c hc
        rcases List.mem_cons.mp hc with rfl | hc
        · exact h2 _ (List.mem_singleton_self _)
        · exact h4 c hc
    · rintro ⟨h1, h2⟩
      refine ⟨?_, ?_, ?_, ?_⟩
      · intro c hc; rw [List.mem_singleton.mp hc]; exact h1 _ (by simp)
      · intro c hc; rw [List.mem_singleton.mp hc]; exact h2 _ (by simp)
      · intro c hc; exact h1 c (List.mem_cons_of_mem _ hc)
      · intro c hc; exact h2 c (List.mem_cons_of_mem _ hc)
  · intro hfail issue recv rcf supf res
    unfold validateRun
    cases hchk : appSchemaCheck ic rc with
    | error e => simp
    | ok u =>
        cases u
        have htrue := happ.mp hchk
        rw [hfail] at htrue
        exact Bool.noConfusion htrue
  · intro hok issue recv rcf supf
    unfold validateRun
    rw [happ.mpr hok]
  · rintro ⟨c, hc, hcs⟩
    by_contra hne
    have hok : appRawSchemaOk ic rc = true := by
      cases h : appRawSchemaOk ic rc
      · exact absurd h hne
      · rfl
    unfold appRawSchemaOk at hok
    simp only [Bool.and_eq_true, List.all_eq_true, contains_true_iff] at hok
    rcases hok with ⟨⟨⟨h1, -⟩, h3⟩, -⟩
    rcases hc with hc | rfl
    · have hceq : strip c = c := app_required_names_stripped.1 c hc
      exact hcs (hceq ▸ List.mem_map_of_mem strip (h1 c hc))
    · exact hcs h3

/-- Claim C6 counterexample: in the extended engine a row whose
'FG Item Code' key cell is null yields no aggregated group at all — the
engine's groupby leaves `dropna` at its pandas default `True` — although
the input has one row.  (The claim asserts null-keyed rows form their own
group in both engines.) -/
theorem c6_counterexample :
    groupAgg [⟨Cell.null, Cell.str "R1", Cell.str "D1", 5, 0⟩] = []
  ∧ ([⟨Cell.null, Cell.str "R1", Cell.str "D1", 5, 0⟩] : List CleanRow) ≠ [] := by
  decide

/-- Claim C6 amended: in the simple variant every row's (string-normalized)
key forms or joins a group — null keys became the string "nan" under
astype(str), so `dropna=False` never drops a row; in the extended engine,
by contrast, every aggregated group has a null-free key, and only rows with
null-free keys are guaranteed a group: null-keyed rows are silently dropped
by the pandas default `dropna=True`. -/
theorem c6_null_keys_amended (arows : List AppKeyed) (a : AppKeyed) (ha : a ∈ arows)
    (erows : List CleanRow) (e : CleanRow) (he : e ∈ erows)
    (hke : keyHasNull e.key = false) :
    a.key ∈ (appGroup arows).map Prod.fst
  ∧ (∀ g ∈ groupAgg erows, keyHasNull g.key = false)
  ∧ e.key ∈ (groupAgg erows).map AggRow.key := by
  refine ⟨?_, ?_, ?_⟩
  · rw [map_fst_appGroup]
    exact (mem_dedupF _ _).mpr (List.mem_map_of_mem _ ha)
  · intro g hg
    rcases List.mem_map.mp hg with ⟨k, hk, rfl⟩
    have hk' := (mem_dedupF _ _).mp hk
    have := (List.mem_filter.mp hk').2
    simpa using this
  · rw [map_key_groupAgg]
    refine (mem_dedupF _ _).mpr (List.mem_filter.mpr ⟨List.mem_map_of_mem _ he, ?_⟩)
    simp [hke]

theorem c6_null_keys_amended_witness :
    (AppKeyed.mk ("nan", "D", "F", "S") 5).key
        ∈ (appGroup [AppKeyed.mk ("nan", "D", "F", "S") 5]).map Prod.fst
  ∧ (∀ g ∈ groupAgg [CleanRow.mk (Cell.str "F") (Cell.str "R") (Cell.str "D") 5 0],
        keyHasNull g.key = false)
  ∧ (CleanRow.mk (Cell.str "F") (Cell.str "R") (Cell.str "D") 5 0).key
        ∈ (groupAgg [CleanRow.mk (Cell.str "F") (Cell.str "R") (Cell.str "D") 5 0]).map
            AggRow.key :=
  c6_null_keys_amended
    [AppKeyed.mk ("nan", "D", "F", "S") 5] (AppKeyed.mk ("nan", "D", "F", "S") 5) (by decide)
    [CleanRow.mk (Cell.str "F") (Cell.str "R") (Cell.str "D") 5 0]
    (CleanRow.mk (Cell.str "F") (Cell.str "R") (Cell.str "D") 5 0) (by decide) (by decide)

/-- Claim C7 counterexample: with a supplied — but empty-string — route-card
filter, the filter stage keeps a row whose route card "A" does not equal
the supplied filter value "": `if route_card:` treats a supplied "" like an
absent filter, so the filtered result is not "exactly the rows matching
every supplied filter by exact string equality". -/
theorem c7_counterexample :
    supplierFilter none (routeFilter (some "") [⟨("A", "B", "C", "D"), 5, 0, 5⟩])
      = [⟨("A", "B", "C", "D"), 5, 0, 5⟩]
  ∧ ("A" : String) ≠ "" := by
  decide

/-- Claim C7 amended: the filter stage returns exactly the rows matching
every supplied filter by exact string equality, a supplied empty-string
filter being treated like an absent one (the code tests Python truthiness,
not presence); the filtered set is a subset of the unfiltered set with each
retained row unaltered, and an absent filter imposes no constraint. -/
theorem c7_filters_amended (rc sup : Option String) (rows : List AppMerged) :
    supplierFilter sup (routeFilter rc rows)
      = rows.filter (fun r => specFilterMatches rc r.key.1 && specFilterMatches sup r.key.2.2.2)
  ∧ (∀ r ∈ supplierFilter sup (routeFilter rc rows), r ∈ rows)
  ∧ routeFilter none rows = rows
  ∧ supplierFilter none rows = rows := by
  have h1 : supplierFilter sup (routeFilter rc rows)
      = rows.filter (fun r =>
          specFilterMatches rc r.key.1 && specFilterMatches sup r.key.2.2.2) := by
    cases rc with
    | none =>
        cases sup with
        | none => simp [routeFilter, supplierFilter, specFilterMatches]
        | some s =>
            by_cases hs : s.isEmpty <;>
              simp [routeFilter, supplierFilter, specFilterMatches, hs]
    | some s =>
        cases sup with
        | none =>
            by_cases hs : s.isEmpty <;>
              simp [routeFilter, supplierFilter, specFilterMatches, hs]
        | some t =>
            by_cases hs : s.isEmpty <;> by_cases ht : t.isEmpty <;>
              simp [routeFilter, supplierFilter, specFilterMatches, hs, ht,
                List.filter_filter, Bool.and_comm]
  refine ⟨h1, ?_, rfl, rfl⟩
  intro r hrm
  rw [h1] at hrm
  exact (List.mem_filter.mp hrm).1

/-- Claim C9: `validate_store` leaves its two argument frames unchanged:
the cleaning section copies both frames first and every in-place column
assignment writes through the copies' references only, so after it runs the
caller's issue and received frames hold exactly their original rows. -/
theorem c9_arguments_unchanged (h : Heap) (issueRef receivedRef : ℕ)
    (hi : issueRef < h.next) (hr : receivedRef < h.next) :
    ((cleanSection h issueRef receivedRef).1).get issueRef = h.get issueRef
  ∧ ((cleanSection h issueRef receivedRef).1).get receivedRef = h.get receivedRef := by
  have h1 : issueRef ≠ h.next := Nat.ne_of_lt hi
  have h2 : issueRef ≠ h.next + 1 := by omega
  have h3 : receivedRef ≠ h.next := Nat.ne_of_lt hr
  have h4 : receivedRef ≠ h.next + 1 := by omega
  constructor <;>
    simp [cleanSection, Heap.alloc, Heap.write, Heap.get,
      Function.update_noteq h1, Function.update_noteq h2,
      Function.update_noteq h3, Function.update_noteq h4]

theorem c9_arguments_unchanged_witness :
    (0 : ℕ) < 2 ∧ (1 : ℕ) < 2
  ∧ (((cleanSection ⟨fun _ => [], 2⟩ 0 1).1).get 0 = (Heap.mk (fun _ => []) 2).get 0
      ∧ ((cleanSection ⟨fun _ => [], 2⟩ 0 1).1).get 1 = (Heap.mk (fun _ => []) 2).get 1) :=
  ⟨by decide, by decide,
    c9_arguments_unchanged ⟨fun _ => [], 2⟩ 0 1 (by decide) (by decide)⟩

end Geekey
